import Mathlib

/-
  A shallow embedding of the loan-data preprocessing pipeline in
  `src/prePocessData.py` (repository `frenato00/ML_2022`).

  Modelling conventions:
  * Python floats are modelled as exact rationals (`ℚ`).
  * Python dicts are modelled as association lists (`List (ℕ × ℚ)` etc.);
    `dict[k]` raising `KeyError` becomes an `Except` error value, and a dict
    never holds duplicate keys, so `List.lookup` (first match) is faithful.
  * pandas `DataFrame`s are modelled by `DF`: a column-name list plus one
    association list per row.  Cell values (`Val`) are either numbers or
    strings, matching the two kinds of columns the pipeline touches.
  * Exceptions that abort a run (`KeyError`, `IndexError`, date parse
    failures) are modelled by `Except PyError`.
  * `scipy.stats.zscore` divides by the population standard deviation; on a
    zero-variance column the float result is NaN and `np.abs(NaN) < 3` is
    `False`.  In exact arithmetic `|z| < 3` (with the NaN case excluded) is
    equivalent to `(x - mean)² < 9·variance`, which is how `zKeepB` states it:
    for zero variance both sides of that comparison are `0 < 0`, i.e. the row
    is discarded, exactly as NaN is discarded by the float comparison.
-/

namespace ML2022

/-- The kinds of Python exceptions the pipeline can raise. -/
inductive PyError where
  | keyError : PyError
  | indexError : PyError
  | parseError : PyError
deriving DecidableEq, Repr

/-- Embeds `processZeroSalaries(salaries, districtAvgSalary, substituteWithAvg)`
(`src/prePocessData.py:208-234`): iterate the salary dict in order; a zero
salary is replaced by `districtAvgSalary[accountId]` (a `KeyError` if the key
is absent) when `substituteWithAvg` holds and by `1` otherwise; any other
salary is copied unchanged. -/
def processZeroSalaries (salaries districtAvgSalary : List (ℕ × ℚ))
    (substituteWithAvg : Bool) : Except PyError (List (ℕ × ℚ)) :=
  match salaries with
  | [] => .ok []
  | (accountId, s) :: rest =>
    if s = 0 then
      if substituteWithAvg then
        match districtAvgSalary.lookup accountId with
        | none => .error .keyError
        | some v =>
          match processZeroSalaries rest districtAvgSalary substituteWithAvg with
          | .error e => .error e
          | .ok out => .ok ((accountId, v) :: out)
      else
        match processZeroSalaries rest districtAvgSalary substituteWithAvg with
        | .error e => .error e
        | .ok out => .ok ((accountId, 1) :: out)
    else
      match processZeroSalaries rest districtAvgSalary substituteWithAvg with
      | .error e => .error e
      | .ok out => .ok ((accountId, s) :: out)

/-- The two columns of the loans table that `combineFeatures` reads. -/
structure LoanRow where
  account_id : ℕ
  loan_id : ℕ
deriving DecidableEq, Repr

/-- The two columns of the dispositions table that `combineFeatures` reads. -/
structure Disp where
  account_id : ℕ
  client_id : ℕ
deriving DecidableEq, Repr

/-- Embeds the inner disposition scan of `combineFeatures`
(`src/prePocessData.py:95-97`): `clientId` starts as `None` and is overwritten
by every disposition whose `account_id` matches, so the last match wins. -/
def resolveClient (dispositions : List Disp) (accountId : ℕ) : Option ℕ :=
  dispositions.foldl
    (fun clientId rowDisp =>
      if rowDisp.account_id = accountId then some rowDisp.client_id else clientId)
    none

/-- The seven per-loan feature lists returned by `combineFeatures`. -/
structure CFResult where
  gendersByLoan : List String
  ageGroupByLoan : List String
  effortRateByLoan : List ℚ
  savingsRateByLoan : List ℚ
  distCrimeByLoan : List ℚ
  expensesByLoan : List ℚ
  agesByLoan : List ℕ
deriving DecidableEq, Repr

/-- Embeds one iteration of the loan loop of `combineFeatures`
(`src/prePocessData.py:89-118`).  The demographic part runs first: if a client
resolved, its row position in the clients table is located
(`clients.index[clients['client_id'] == clientId][0]`, an `IndexError` when no
row matches) and the positional arrays `genders`, `ageGroups`, `ages` are read
at that position (an `IndexError` when out of range); if no client resolved
the demographic part is skipped (the source only prints `'ClientId None'`).
Then `effortRates[loanId]`, `savingsRates[loanId]` and
`districtCrimeRates[accountId]` are read (each a `KeyError` on a miss) and
`expenses[accountId]` is read with the `try/except KeyError` default `0`. -/
def processLoan (row : LoanRow) (clients : List ℕ) (dispositions : List Disp)
    (genders ageGroups : List String)
    (effortRates savingsRates districtCrimeRates expensesMap : List (ℕ × ℚ))
    (ages : List ℕ) :
    Except PyError (Option (String × String × ℕ) × ℚ × ℚ × ℚ × ℚ) :=
  let accountId := row.account_id
  let loanId := row.loan_id
  let clientId := resolveClient dispositions accountId
  let demoE : Except PyError (Option (String × String × ℕ)) :=
    match clientId with
    | none => .ok none
    | some cid =>
      match clients.findIdx? (fun c => c = cid) with
      | none => .error .indexError
      | some clientIndex =>
        match genders.get? clientIndex, ageGroups.get? clientIndex,
              ages.get? clientIndex with
        | some g, some ag, some a => .ok (some (g, ag, a))
        | _, _, _ => .error .indexError
  match demoE with
  | .error e => .error e
  | .ok demo =>
    match effortRates.lookup loanId with
    | none => .error .keyError
    | some er =>
      match savingsRates.lookup loanId with
      | none => .error .keyError
      | some sr =>
        match districtCrimeRates.lookup accountId with
        | none => .error .keyError
        | some dc =>
          .ok (demo, er, sr, dc, (expensesMap.lookup accountId).getD 0)

/-- Embeds `combineFeatures(loans, clients, dispositions, genders, ageGroups,
effortRates, savingsRates, districtCrimeRates, expenses, ages)`
(`src/prePocessData.py:62-119`): the loan loop, appending the per-loan values
produced by `processLoan` to the seven result lists.  When a loan resolved no
client the source appends nothing to the three demographic lists. -/
def combineFeatures (loans : List LoanRow) (clients : List ℕ)
    (dispositions : List Disp) (genders ageGroups : List String)
    (effortRates savingsRates districtCrimeRates expensesMap : List (ℕ × ℚ))
    (ages : List ℕ) : Except PyError CFResult :=
  match loans with
  | [] => .ok ⟨[], [], [], [], [], [], []⟩
  | row :: rest =>
    match processLoan row clients dispositions genders ageGroups
        effortRates savingsRates districtCrimeRates expensesMap ages with
    | .error e => .error e
    | .ok (demo, er, sr, dc, ex) =>
      match combineFeatures rest clients dispositions genders ageGroups
          effortRates savingsRates districtCrimeRates expensesMap ages with
      | .error e => .error e
      | .ok res =>
        .ok
          { gendersByLoan :=
              match demo with
              | some (g, _, _) => g :: res.gendersByLoan
              | none => res.gendersByLoan
            ageGroupByLoan :=
              match demo with
              | some (_, ag, _) => ag :: res.ageGroupByLoan
              | none => res.ageGroupByLoan
            effortRateByLoan := er :: res.effortRateByLoan
            savingsRateByLoan := sr :: res.savingsRateByLoan
            distCrimeByLoan := dc :: res.distCrimeByLoan
            expensesByLoan := ex :: res.expensesByLoan
            agesByLoan :=
              match demo with
              | some (_, _, a) => a :: res.agesByLoan
              | none => res.agesByLoan }

/-- A cell of a modelled DataFrame: a number or a string. -/
inductive Val where
  | num : ℚ → Val
  | str : String → Val
deriving DecidableEq, Repr

/-- The numeric content of a cell, if any. -/
def Val.num? : Val → Option ℚ
  | .num q => some q
  | .str _ => none

/-- Lexicographic order on character lists by Unicode code point, the order in
which `numpy.unique` (hence `sklearn.LabelEncoder`) sorts distinct strings. -/
def lexLe : List Char → List Char → Bool
  | [], _ => true
  | _ :: _, [] => false
  | a :: as, b :: bs => if a = b then lexLe as bs else decide (a.toNat < b.toNat)

/-- Total order on cells: numbers by numeric value, strings lexicographically,
numbers before strings (a pandas column is homogeneous, so the cross-kind case
never arises in a real run; any total choice models `numpy.unique`). -/
def Val.le : Val → Val → Bool
  | .num a, .num b => decide (a ≤ b)
  | .num _, .str _ => true
  | .str _, .num _ => false
  | .str a, .str b => lexLe a.data b.data

/-- Strict version of `Val.le`. -/
def Val.lt (a b : Val) : Bool := Val.le a b && !(Val.le b a)

/-- One DataFrame row: an association list from column name to cell. -/
abbrev Row := List (String × Val)

/-- A modelled DataFrame: the column names and the rows. -/
structure DF where
  cols : List String
  rows : List Row
deriving DecidableEq, Repr

/-- Column `c` as a value list (total form; a missing cell reads as `0`,
which never happens for the columns the theorems below address). -/
def getCol (df : DF) (c : String) : List Val :=
  df.rows.map (fun r => (r.lookup c).getD (Val.num 0))

/-- Column `c` as a value list, `none` when some row lacks the column —
the model of `df[c]` raising on a missing label. -/
def rowsVals : List Row → String → Option (List Val)
  | [], _ => some []
  | r :: rs, c =>
    match r.lookup c, rowsVals rs c with
    | some v, some vs => some (v :: vs)
    | _, _ => none

/-- Embeds `DataFrame.drop(col, axis=1)`: a `KeyError` when the label is
absent, otherwise the column is removed from the header and from every row. -/
def dropCol (df : DF) (c : String) : Except PyError DF :=
  if c ∈ df.cols then
    .ok ⟨df.cols.filter (fun x => x ≠ c),
         df.rows.map (fun r => r.filter (fun p => p.1 ≠ c))⟩
  else .error .keyError

/-- Drops the listed columns in order, as the loop in `cleanData` does. -/
def dropCols : DF → List String → Except PyError DF
  | df, [] => .ok df
  | df, c :: cs =>
    match dropCol df c with
    | .error e => .error e
    | .ok d => dropCols d cs

/-- The identifier columns `cleanData` removes (`src/prePocessData.py:132`). -/
def columnsToRemove : List String := ["loan_id", "account_id"]

/-- Embeds `cleanData(loansDataFrame)` (`src/prePocessData.py:122-137`):
drop `loan_id` and `account_id`, in that order. -/
def cleanData (loansDataFrame : DF) : Except PyError DF :=
  dropCols loansDataFrame columnsToRemove

/-- Embeds column assignment `df[c] = vs` for a fresh label: pandas appends
the new column after the existing ones. -/
def addCol (df : DF) (c : String) (vs : List Val) : DF :=
  ⟨df.cols ++ [c], (df.rows.zip vs).map (fun p => p.1 ++ [(c, p.2)])⟩

/-- The numeric content of row `r` in column `c`. -/
def rowNum (r : Row) (c : String) : Option ℚ := (r.lookup c).bind Val.num?

/-- Column `c` as a rational list, `none` when some row lacks a numeric cell
there — the model of `stats.zscore(result[col])` raising on bad input. -/
def rowsNum : List Row → String → Option (List ℚ)
  | [], _ => some []
  | r :: rs, c =>
    match rowNum r c, rowsNum rs c with
    | some x, some xs => some (x :: xs)
    | _, _ => none

/-- The mean of a column, as `zscore` computes it. -/
def meanQ (xs : List ℚ) : ℚ := xs.sum / xs.length

/-- The population variance (`ddof=0`) of a column, as `zscore` computes it. -/
def varQ (xs : List ℚ) : ℚ :=
  (xs.map (fun x => (x - meanQ xs) ^ 2)).sum / xs.length

/-- The row-keeping test `np.abs(stats.zscore(xs)) < 3` at value `x`, in exact
arithmetic: `(x - mean)² < 9·variance`.  For positive variance this is `|z| <
3`; for zero variance `zscore` yields NaN, the float comparison is `False`,
and here `0 < 0` is false — the row is discarded either way. -/
def zKeepB (xs : List ℚ) (x : ℚ) : Bool :=
  decide ((x - meanQ xs) ^ 2 < 9 * varQ xs)

/-- Embeds one step of the `removeOutliers` loop
(`src/prePocessData.py:154-156`): score column `c` over the current row set
and keep the rows passing `zKeepB`. -/
def zFilter (df : DF) (c : String) : Except PyError DF :=
  match rowsNum df.rows c with
  | none => .error .keyError
  | some xs =>
    .ok ⟨df.cols,
         df.rows.filter (fun r =>
           match rowNum r c with
           | some x => zKeepB xs x
           | none => false)⟩

/-- The fixed column list of `removeOutliers` (`src/prePocessData.py:148`). -/
def nonCategoricalColumns : List String :=
  ["savingsRate", "distCrime", "amount", "duration", "payments", "expenses"]

/-- The `removeOutliers` loop: apply `zFilter` for each column in order,
each step starting from the previous step's survivors. -/
def applyFilters : DF → List String → Except PyError DF
  | df, [] => .ok df
  | df, c :: cs =>
    match zFilter df c with
    | .error e => .error e
    | .ok d => applyFilters d cs

/-- Embeds `removeOutliers(loansDataFrame)` (`src/prePocessData.py:140-162`). -/
def removeOutliers (loansDataFrame : DF) : Except PyError DF :=
  applyFilters loansDataFrame nonCategoricalColumns

/-- Index of the first occurrence of `v`, as `LabelEncoder.transform` reads a
code off the sorted class array. -/
def idxOfV : List Val → Val → ℕ
  | [], _ => 0
  | w :: ws, v => if w = v then 0 else idxOfV ws v + 1

/-- Ordered insertion with respect to `Val.le`. -/
def insertVal (v : Val) : List Val → List Val
  | [] => [v]
  | w :: ws => if Val.le v w then v :: w :: ws else w :: insertVal v ws

/-- Insertion sort with respect to `Val.le` — the ascending order in which
`numpy.unique` (hence `sklearn.LabelEncoder`) lists the distinct values. -/
def sortVals : List Val → List Val
  | [] => []
  | v :: vs => insertVal v (sortVals vs)

/-- Embeds `LabelEncoder().fit_transform(vs)`: the classes are the distinct
observed values in ascending order, and each value is replaced by its index
among the classes. -/
def encodeCol (vs : List Val) : List ℕ :=
  let classes := sortVals vs.dedup
  vs.map (fun v => idxOfV classes v)

/-- Digits-to-number; `none` on an empty or non-digit string. -/
def parseNatDigits : List Char → ℕ → Option ℕ
  | [], acc => some acc
  | c :: rest, acc =>
    if c.isDigit then parseNatDigits rest (10 * acc + (c.toNat - 48)) else none

/-- `parseNatDigits` requiring at least one digit. -/
def parseNat (cs : List Char) : Option ℕ :=
  match cs with
  | [] => none
  | _ => parseNatDigits cs 0

/-- Split a character list on `'-'`. -/
def splitDash : List Char → List (List Char)
  | [] => [[]]
  | c :: rest =>
    if c = '-' then [] :: splitDash rest
    else
      match splitDash rest with
      | [] => [[c]]
      | g :: gs => (c :: g) :: gs

/-- Modelled from the spec: `convertFullDate` lives in `utils.py`, which is
not under `src/`.  The spec fixes its contract: a full date such as
`"1997-05-12"` has year, month and day components (month `5`, day `12` in the
example), and a string that is not a valid calendar date is a fatal parse
error rather than a silent default. -/
def convertFullDate (s : String) : Option (ℕ × ℕ × ℕ) :=
  match splitDash s.data with
  | [y, m, d] =>
    match parseNat y, parseNat m, parseNat d with
    | some yn, some mn, some dn =>
      if 1 ≤ mn ∧ mn ≤ 12 ∧ 1 ≤ dn ∧ dn ≤ 31 then some (yn, mn, dn) else none
    | _, _, _ => none
  | _ => none

/-- Python's `str(cell)`: a string cell is itself; a numeric cell prints. -/
def valToString : Val → String
  | .str s => s
  | .num q => toString q

/-- The date loop of `labelEncoding`: parse every date cell, `none` if any
fails. -/
def datesYMD : List Val → Option (List (ℕ × ℕ × ℕ))
  | [] => some []
  | v :: vs =>
    match convertFullDate (valToString v), datesYMD vs with
    | some ymd, some rest => some (ymd :: rest)
    | _, _ => none

/-- Embeds `labelEncoding(loansDataFrame)` (`src/prePocessData.py:165-205`):
fit-transform `gender` and `ageGroup`, drop the two original columns and
append the encoded ones; then parse every `date` cell, drop `date` and append
numeric `month` and `day` columns; the `year` column stays commented out in
the source and is never added. -/
def labelEncoding (loansDataFrame : DF) : Except PyError DF :=
  match rowsVals loansDataFrame.rows "gender" with
  | none => .error .keyError
  | some genderVals =>
    match rowsVals loansDataFrame.rows "ageGroup" with
    | none => .error .keyError
    | some ageGroupVals =>
      let encodedGender := encodeCol genderVals
      let encodedAgeGroup := encodeCol ageGroupVals
      match dropCol loansDataFrame "gender" with
      | .error e => .error e
      | .ok d1 =>
        match dropCol d1 "ageGroup" with
        | .error e => .error e
        | .ok d2 =>
          let d3 := addCol d2 "gender" (encodedGender.map (fun n : ℕ => Val.num (n : ℚ)))
          let d4 := addCol d3 "ageGroup" (encodedAgeGroup.map (fun n : ℕ => Val.num (n : ℚ)))
          match rowsVals d4.rows "date" with
          | none => .error .keyError
          | some dateVals =>
            match datesYMD dateVals with
            | none => .error .parseError
            | some ymds =>
              match dropCol d4 "date" with
              | .error e => .error e
              | .ok d5 =>
                .ok (addCol
                      (addCol d5 "month" (ymds.map (fun t => Val.num (t.2.1 : ℚ))))
                      "day" (ymds.map (fun t => Val.num (t.2.2 : ℚ))))

/-- A concrete row with value `1` in each of the six filtered columns, for
the zero-variance scenarios below. -/
def constRow : Row :=
  [("savingsRate", Val.num 1), ("distCrime", Val.num 1), ("amount", Val.num 1),
   ("duration", Val.num 1), ("payments", Val.num 1), ("expenses", Val.num 1)]

/-- A concrete two-row table in which every filtered column is constant. -/
def constDF : DF := ⟨nonCategoricalColumns, [constRow, constRow]⟩

/-! ## Theorems -/

/-- Helper: the success case of `processZeroSalaries`, shared by the theorems
below. -/
lemma processZeroSalariesOk (salaries districtAvgSalary : List (ℕ × ℚ))
    (substituteWithAvg : Bool)
    (h : substituteWithAvg = true →
      ∀ p ∈ salaries, p.2 = 0 → (districtAvgSalary.lookup p.1).isSome) :
    processZeroSalaries salaries districtAvgSalary substituteWithAvg =
      .ok (salaries.map (fun p =>
        (p.1,
          if p.2 = 0 then
            (if substituteWithAvg then (districtAvgSalary.lookup p.1).getD 0 else 1)
          else p.2))) := by
  induction salaries with
  | nil => simp [processZeroSalaries]
  | cons p rest ih =>
    obtain ⟨a, s⟩ := p
    have hrest : substituteWithAvg = true →
        ∀ q ∈ rest, q.2 = 0 → (districtAvgSalary.lookup q.1).isSome :=
      fun hb q hq hz => h hb q (List.mem_cons_of_mem _ hq) hz
    by_cases hs : s = 0
    · cases hb : substituteWithAvg with
      | false =>
        rw [hb] at hrest ih
        simp only [processZeroSalaries, hs, if_true, ih hrest, List.map_cons]
        simp [hs]
      | true =>
        rw [hb] at h hrest ih
        have hsome := h rfl (a, s) (List.mem_cons_self _ _) hs
        obtain ⟨v, hv⟩ := Option.isSome_iff_exists.mp hsome
        simp only at hv
        simp only [processZeroSalaries, hs, if_true, hv, ih hrest, List.map_cons]
        simp [hs, hv]
    · simp only [processZeroSalaries, hs, if_false, ih hrest, List.map_cons]

/-- Helper: the failure case of `processZeroSalaries`: a zero salary whose
district average is missing makes the whole call a `KeyError`. -/
lemma processZeroSalariesErr (salaries districtAvgSalary : List (ℕ × ℚ))
    (q : ℕ × ℚ) (hq : q ∈ salaries) (hq0 : q.2 = 0)
    (hqn : districtAvgSalary.lookup q.1 = none) :
    processZeroSalaries salaries districtAvgSalary true = .error .keyError := by
  induction salaries with
  | nil => cases hq
  | cons p rest ih =>
    obtain ⟨a, s⟩ := p
    by_cases hs : s = 0
    · cases hl : districtAvgSalary.lookup a with
      | none => simp [processZeroSalaries, hs, hl]
      | some v =>
        have hqrest : q ∈ rest := by
          rcases List.mem_cons.mp hq with h1 | h2
          · exfalso
            rw [h1] at hqn
            simp only at hqn
            rw [hqn] at hl
            cases hl
          · exact h2
        simp [processZeroSalaries, hs, hl, ih hqrest]
    · have hqrest : q ∈ rest := by
        rcases List.mem_cons.mp hq with h1 | h2
        · exfalso
          rw [h1] at hq0
          simp only at hq0
          exact hs hq0
        · exact h2
      simp [processZeroSalaries, hs, ih hqrest]

/-- C4: for every salaries mapping and district-average mapping (with the
district average present wherever a zero salary forces a lookup),
`processZeroSalaries` returns a mapping over the same keys in the same order,
sending a zero salary to the district average when `substituteWithAvg` is true
and to `1` when it is false, and leaving every non-zero salary unchanged. -/
theorem processZeroSalaries_spec (salaries districtAvgSalary : List (ℕ × ℚ))
    (substituteWithAvg : Bool)
    (h : substituteWithAvg = true →
      ∀ p ∈ salaries, p.2 = 0 → (districtAvgSalary.lookup p.1).isSome) :
    processZeroSalaries salaries districtAvgSalary substituteWithAvg =
      .ok (salaries.map (fun p =>
        (p.1,
          if p.2 = 0 then
            (if substituteWithAvg then (districtAvgSalary.lookup p.1).getD 0 else 1)
          else p.2))) :=
  processZeroSalariesOk salaries districtAvgSalary substituteWithAvg h

/-- Witness for C4 at a concrete input: account 1 has salary 0 and district
average 300, account 2 has salary 5; with `substituteWithAvg = true` the
result maps 1 to 300 and keeps 5. -/
theorem processZeroSalaries_spec_witness :
    processZeroSalaries [(1, 0), (2, 5)] [(1, 300)] true = .ok [(1, 300), (2, 5)] := by
  have h := processZeroSalaries_spec [(1, 0), (2, 5)] [(1, 300)] true (by decide)
  rw [h]
  rfl

/-- C5: `processZeroSalaries` yields a lookup error (`KeyError`) — and hence
no result mapping — exactly when `substituteWithAvg` is true and some account
with salary `0` has no entry in the district-average mapping. -/
theorem processZeroSalaries_keyError_iff (salaries districtAvgSalary : List (ℕ × ℚ))
    (substituteWithAvg : Bool) :
    processZeroSalaries salaries districtAvgSalary substituteWithAvg = .error .keyError ↔
      (substituteWithAvg = true ∧
        ∃ p ∈ salaries, p.2 = 0 ∧ districtAvgSalary.lookup p.1 = none) := by
  constructor
  · intro he
    by_contra hn
    push_neg at hn
    have h : substituteWithAvg = true →
        ∀ p ∈ salaries, p.2 = 0 → (districtAvgSalary.lookup p.1).isSome := by
      intro hb p hp hp0
      exact Option.ne_none_iff_isSome.mp (hn hb p hp hp0)
    rw [processZeroSalariesOk salaries districtAvgSalary substituteWithAvg h] at he
    exact Except.noConfusion he
  · rintro ⟨hb, q, hq, hq0, hqn⟩
    rw [hb]
    exact processZeroSalariesErr salaries districtAvgSalary q hq hq0 hqn

/-- Helper: inverting a successful `processLoan`: the three mandatory lookups
hit, and the expense value is the defaulted lookup. -/
lemma processLoanOk (row : LoanRow) (clients : List ℕ) (dispositions : List Disp)
    (genders ageGroups : List String)
    (effortRates savingsRates districtCrimeRates expensesMap : List (ℕ × ℚ))
    (ages : List ℕ) (demo : Option (String × String × ℕ)) (er sr dc ex : ℚ)
    (h : processLoan row clients dispositions genders ageGroups effortRates
        savingsRates districtCrimeRates expensesMap ages = .ok (demo, er, sr, dc, ex)) :
    effortRates.lookup row.loan_id = some er ∧
    savingsRates.lookup row.loan_id = some sr ∧
    districtCrimeRates.lookup row.account_id = some dc ∧
    ex = (expensesMap.lookup row.account_id).getD 0 := by
  unfold processLoan at h
  have hstep : ∀ demoE : Except PyError (Option (String × String × ℕ)),
      (match demoE with
        | .error e => Except.error e
        | .ok demo =>
          match effortRates.lookup row.loan_id with
          | none => Except.error PyError.keyError
          | some er =>
            match savingsRates.lookup row.loan_id with
            | none => Except.error PyError.keyError
            | some sr =>
              match districtCrimeRates.lookup row.account_id with
              | none => Except.error PyError.keyError
              | some dc =>
                Except.ok (demo, er, sr, dc, (expensesMap.lookup row.account_id).getD 0)) =
        Except.ok (demo, er, sr, dc, ex) →
      effortRates.lookup row.loan_id = some er ∧
      savingsRates.lookup row.loan_id = some sr ∧
      districtCrimeRates.lookup row.account_id = some dc ∧
      ex = (expensesMap.lookup row.account_id).getD 0 := by
    intro demoE hm
    rcases demoE with e | d
    · exact Except.noConfusion hm
    · rcases he : effortRates.lookup row.loan_id with _ | er2 <;> rw [he] at hm
      · exact Except.noConfusion hm
      rcases hs : savingsRates.lookup row.loan_id with _ | sr2 <;> rw [hs] at hm
      · exact Except.noConfusion hm
      rcases hd : districtCrimeRates.lookup row.account_id with _ | dc2 <;> rw [hd] at hm
      · exact Except.noConfusion hm
      injection hm with hm
      cases hm
      exact ⟨rfl, rfl, rfl, rfl⟩
  exact hstep _ h

/-- Helper: inverting a successful `combineFeatures` run: the expenses column
is the defaulted lookup of every loan's account in input order, and every
loan's three mandatory lookups hit. -/
lemma combineFeaturesOk (clients : List ℕ) (dispositions : List Disp)
    (genders ageGroups : List String)
    (effortRates savingsRates districtCrimeRates expensesMap : List (ℕ × ℚ))
    (ages : List ℕ) (loans : List LoanRow) :
    ∀ res : CFResult,
      combineFeatures loans clients dispositions genders ageGroups effortRates
        savingsRates districtCrimeRates expensesMap ages = .ok res →
      res.expensesByLoan =
          loans.map (fun r => (expensesMap.lookup r.account_id).getD 0) ∧
      ∀ r ∈ loans,
        (effortRates.lookup r.loan_id).isSome ∧
        (savingsRates.lookup r.loan_id).isSome ∧
        (districtCrimeRates.lookup r.account_id).isSome := by
  induction loans with
  | nil =>
    intro res h
    unfold combineFeatures at h
    injection h with h
    constructor
    · rw [← h]
      rfl
    · intro r hr
      cases hr
  | cons row rest ih =>
    intro res h
    unfold combineFeatures at h
    split at h
    · exact Except.noConfusion h
    · split at h
      · exact Except.noConfusion h
      · rename_i x1 demo er sr dc ex hp x2 res2 hrec
        injection h with h
        obtain ⟨he, hs, hd, hex⟩ :=
          processLoanOk row clients dispositions genders ageGroups effortRates
            savingsRates districtCrimeRates expensesMap ages demo er sr dc ex hp
        obtain ⟨hexp, hlook⟩ := ih res2 hrec
        constructor
        · rw [← h]
          simp only [List.map_cons, ← hexp, hex]
        · intro r hr
          rcases List.mem_cons.mp hr with h1 | h2
          · subst h1
            exact ⟨by rw [he]; rfl, by rw [hs]; rfl, by rw [hd]; rfl⟩
          · exact hlook r h2

/-- C6: in `combineFeatures`, a loan whose account is missing from the
expenses dict gets the default `0` in the expenses column of a successful run
(first conjunct: on success the expenses column is the defaulted lookup of
every loan, so a miss never aborts and reads as `0`), while a missing
`effortRates`, `savingsRates` or `districtCrimeRates` key makes a successful
run impossible — the lookup error aborts it (second conjunct). -/
theorem combineFeatures_lookup_policy (loans : List LoanRow) (clients : List ℕ)
    (dispositions : List Disp) (genders ageGroups : List String)
    (effortRates savingsRates districtCrimeRates expensesMap : List (ℕ × ℚ))
    (ages : List ℕ) :
    (∀ res : CFResult,
      combineFeatures loans clients dispositions genders ageGroups effortRates
          savingsRates districtCrimeRates expensesMap ages = .ok res →
        res.expensesByLoan =
          loans.map (fun r => (expensesMap.lookup r.account_id).getD 0)) ∧
    (∀ r ∈ loans,
      (effortRates.lookup r.loan_id = none ∨ savingsRates.lookup r.loan_id = none ∨
        districtCrimeRates.lookup r.account_id = none) →
      ∀ res : CFResult,
        combineFeatures loans clients dispositions genders ageGroups effortRates
          savingsRates districtCrimeRates expensesMap ages ≠ .ok res) := by
  constructor
  · intro res h
    exact (combineFeaturesOk clients dispositions genders ageGroups effortRates
      savingsRates districtCrimeRates expensesMap ages loans res h).1
  · intro r hr hmiss res h
    obtain ⟨-, hlook⟩ := combineFeaturesOk clients dispositions genders ageGroups
      effortRates savingsRates districtCrimeRates expensesMap ages loans res h
    obtain ⟨h1, h2, h3⟩ := hlook r hr
    rcases hmiss with hm | hm | hm
    · rw [hm] at h1
      exact Bool.noConfusion h1
    · rw [hm] at h2
      exact Bool.noConfusion h2
    · rw [hm] at h3
      exact Bool.noConfusion h3

/-- Witness for C6 at a concrete input: one loan on account 10 and an empty
expenses dict; the run succeeds and the expenses column is the default `[0]`,
as the first conjunct of the theorem states. -/
theorem combineFeatures_lookup_policy_witness :
    CFResult.expensesByLoan ⟨["M"], ["A"], [2], [3], [4], [0], [30]⟩
      = List.map (fun r => (List.lookup r.account_id ([] : List (ℕ × ℚ))).getD 0)
          [(⟨10, 1⟩ : LoanRow)] := by
  have h := (combineFeatures_lookup_policy [⟨10, 1⟩] [5] [⟨10, 5⟩] ["M"] ["A"]
    [(1, 2)] [(1, 3)] [(10, 4)] [] [30]).1
  exact h ⟨["M"], ["A"], [2], [3], [4], [0], [30]⟩ (by rfl)

/-- C1 (the code side): at a loans table with a single loan whose account
matches no disposition row, `combineFeatures` succeeds but appends nothing to
the demographic lists: `gendersByLoan` comes back empty (length 0) while the
input has one loan and the other derived columns have one entry.  The
demographic columns therefore do not stay aligned with the loan rows — the
loan's demographic entry is skipped, not set to an absent placeholder. -/
theorem combineFeatures_unmatched_loan :
    combineFeatures [⟨10, 1⟩] [5] [] ["M"] ["A"] [(1, 2)] [(1, 3)] [(10, 4)]
        [(10, 6)] [30] = .ok ⟨[], [], [2], [3], [4], [6], []⟩ ∧
    ([(⟨10, 1⟩ : LoanRow)].length = 1 ∧
      (CFResult.gendersByLoan ⟨[], [], [2], [3], [4], [6], []⟩).length = 0 ∧
      (CFResult.expensesByLoan ⟨[], [], [2], [3], [4], [6], []⟩).length = 1) :=
  ⟨rfl, rfl, rfl, rfl⟩

/-- C10: at an input where the disposition scan resolves the loan's account
to client 99 but the clients table has no row with that `client_id`, the row
position selection `clients.index[clients['client_id'] == clientId][0]` fails
and `combineFeatures` aborts with an `IndexError` instead of treating the
loan as a resolution gap. -/
theorem combineFeatures_missing_client_indexError :
    combineFeatures [⟨10, 1⟩] [5] [⟨10, 99⟩] ["M"] ["A"] [(1, 2)] [(1, 3)]
        [(10, 4)] [(10, 6)] [30] = .error .indexError := rfl

/-- Helper: `(a :: l).getLast?` is the last of `l`, falling back to `a`. -/
lemma getLastCons {α : Type} : ∀ (l : List α) (a : α),
    (a :: l).getLast? = l.getLast?.or (some a)
  | [], _ => rfl
  | b :: t, a => by
    rw [List.getLast?_cons_cons, getLastCons t b]
    cases t.getLast? <;> rfl

/-- Helper: the disposition fold with an arbitrary starting accumulator. -/
lemma resolveClientAux (accountId : ℕ) : ∀ (l : List Disp) (acc : Option ℕ),
    List.foldl
      (fun clientId rowDisp =>
        if rowDisp.account_id = accountId then some rowDisp.client_id else clientId)
      acc l =
    (((l.filter (fun d => d.account_id == accountId)).map Disp.client_id).getLast?).or acc
  | [], acc => rfl
  | d :: rest, acc => by
    by_cases hd : d.account_id = accountId
    · rw [List.foldl_cons, if_pos hd, resolveClientAux accountId rest,
        List.filter_cons_of_pos (by simpa using hd), List.map_cons, getLastCons]
      cases (((rest.filter (fun d => d.account_id == accountId)).map Disp.client_id).getLast?) <;> rfl
    · rw [List.foldl_cons, if_neg hd, resolveClientAux accountId rest,
        List.filter_cons_of_neg (by simpa using hd)]

/-- C7: the disposition scan of `combineFeatures` (the loop embedded as
`resolveClient`) resolves a loan's account to the `client_id` of the *last*
disposition in iteration order whose `account_id` matches: the scan overwrites
`clientId` at every match, so the result is the last element of the matching
dispositions' client ids. -/
theorem resolveClient_last_match (dispositions : List Disp) (accountId : ℕ) :
    resolveClient dispositions accountId =
      ((dispositions.filter (fun d => d.account_id == accountId)).map
        Disp.client_id).getLast? := by
  unfold resolveClient
  rw [resolveClientAux accountId dispositions none]
  cases (((dispositions.filter (fun d => d.account_id == accountId)).map
    Disp.client_id).getLast?) <;> rfl

/-- Helper: dropping column `k` from a row does not disturb lookups of a
different column. -/
lemma lookupFilterNe (c k : String) (hck : c ≠ k) :
    ∀ r : Row, (r.filter (fun p => p.1 ≠ k)).lookup c = r.lookup c := by
  intro r
  induction r with
  | nil => rfl
  | cons p t ih =>
    obtain ⟨k1, v⟩ := p
    by_cases hk : k1 = k
    · subst hk
      have hck1 : (c == k1) = false := beq_eq_false_iff_ne.mpr hck
      simp only [List.filter_cons, List.lookup_cons, hck1]
      simp only [decide_eq_true_eq]
      rw [if_neg (by simp)]
      simpa using ih
    · have hdec : (decide (k1 = k)) = false := decide_eq_false hk
      cases hbc : c == k1 with
      | true => simp [List.filter_cons, hdec, List.lookup_cons, hbc]
      | false =>
        simp [List.filter_cons, hdec, List.lookup_cons, hbc]
        simpa using ih

/-- Helper: a successful `dropCol` in explicit form. -/
lemma dropColOk (df : DF) (k : String) (hk : k ∈ df.cols) :
    dropCol df k =
      .ok ⟨df.cols.filter (fun x => x ≠ k),
           df.rows.map (fun r => r.filter (fun p => p.1 ≠ k))⟩ := by
  simp [dropCol, hk]

/-- Helper: one step of `dropCols` as a monadic bind. -/
lemma dropColsCons (df : DF) (c : String) (cs : List String) :
    dropCols df (c :: cs) = (dropCol df c).bind (fun d => dropCols d cs) := by
  cases h : dropCol df c <;> simp [dropCols, h, Except.bind]

/-- C8: on a table containing `loan_id` and `account_id`, `cleanData`
succeeds with a table containing exactly the other columns, and every other
column's values are unchanged. -/
theorem cleanData_spec (df : DF)
    (h1 : "loan_id" ∈ df.cols) (h2 : "account_id" ∈ df.cols) :
    ∃ out : DF, cleanData df = .ok out ∧
      "loan_id" ∉ out.cols ∧ "account_id" ∉ out.cols ∧
      (∀ c : String, c ∈ out.cols ↔
        (c ∈ df.cols ∧ c ≠ "loan_id" ∧ c ≠ "account_id")) ∧
      (∀ c : String, c ≠ "loan_id" → c ≠ "account_id" →
        getCol out c = getCol df c) := by
  have hstep1 := dropColOk df "loan_id" h1
  set d1 : DF :=
    ⟨df.cols.filter (fun x => x ≠ "loan_id"),
     df.rows.map (fun r => r.filter (fun p => p.1 ≠ "loan_id"))⟩ with hd1
  have h2' : "account_id" ∈ d1.cols := by
    rw [hd1]
    simp only [List.mem_filter, decide_eq_true_eq, ne_eq]
    exact ⟨h2, by decide⟩
  have hstep2 := dropColOk d1 "account_id" h2'
  set out : DF :=
    ⟨d1.cols.filter (fun x => x ≠ "account_id"),
     d1.rows.map (fun r => r.filter (fun p => p.1 ≠ "account_id"))⟩ with hout
  refine ⟨out, ?_, ?_, ?_, ?_, ?_⟩
  · show dropCols df ["loan_id", "account_id"] = .ok out
    rw [dropColsCons, hstep1]
    show dropCols d1 ["account_id"] = .ok out
    rw [dropColsCons, hstep2]
    rfl
  · rw [hout, hd1]
    simp
  · rw [hout, hd1]
    simp
  · intro c
    rw [hout, hd1]
    simp only [List.mem_filter, decide_eq_true_eq, ne_eq]
    tauto
  · intro c hcl hca
    rw [hout, hd1]
    simp only [getCol, List.map_map]
    apply List.map_congr_left
    intro r hr
    simp only [Function.comp_apply]
    rw [lookupFilterNe c "account_id" hca, lookupFilterNe c "loan_id" hcl]

/-- Witness for C8 at a concrete three-column table: the identifier columns
disappear and `amount` survives unchanged. -/
theorem cleanData_spec_witness :
    cleanData ⟨["loan_id", "account_id", "amount"],
        [[("loan_id", Val.num 1), ("account_id", Val.num 10), ("amount", Val.num 500)]]⟩
      = .ok ⟨["amount"], [[("amount", Val.num 500)]]⟩ ∧
    getCol ⟨["amount"], [[("amount", Val.num 500)]]⟩ "amount" = [Val.num 500] := by
  obtain ⟨out, hout, hl, ha, hcols, hvals⟩ :=
    cleanData_spec ⟨["loan_id", "account_id", "amount"],
        [[("loan_id", Val.num 1), ("account_id", Val.num 10), ("amount", Val.num 500)]]⟩
      (by decide) (by decide)
  have he : cleanData ⟨["loan_id", "account_id", "amount"],
      [[("loan_id", Val.num 1), ("account_id", Val.num 10), ("amount", Val.num 500)]]⟩
      = .ok ⟨["amount"], [[("amount", Val.num 500)]]⟩ := rfl
  exact ⟨he, rfl⟩

/-- Helper: `applyFilters` on a cons, as a monadic bind. -/
lemma applyFiltersCons (df : DF) (c : String) (cs : List String) :
    applyFilters df (c :: cs) = (zFilter df c).bind (fun d => applyFilters d cs) := by
  cases h : zFilter df c <;> simp [applyFilters, h, Except.bind]

/-- Helper: `applyFilters` with no columns left. -/
lemma applyFiltersNil (df : DF) : applyFilters df [] = .ok df := rfl

/-- Helper: binding a pure continuation is the identity. -/
lemma bindPureExcept (e : Except PyError DF) : e.bind (fun d => Except.ok d) = e := by
  cases e <;> rfl

/-- Helper: the population variance is never negative. -/
lemma varQNonneg (xs : List ℚ) : 0 ≤ varQ xs := by
  rw [varQ]
  apply div_nonneg
  · apply List.sum_nonneg
    intro y hy
    simp only [List.mem_map] at hy
    obtain ⟨x, -, rfl⟩ := hy
    positivity
  · exact Nat.cast_nonneg _

/-- Helper: `zKeepB` is the strict three-sigma test on the real z-score: the
row survives iff the standard deviation is non-zero and `|x - mean| / sd < 3`.
For zero variance the float z-score is NaN and the row is discarded, matching
the first conjunct failing. -/
lemma zKeepBIff (xs : List ℚ) (x : ℚ) :
    zKeepB xs x = true ↔
      (Real.sqrt (varQ xs) ≠ 0 ∧
        |(x : ℝ) - (meanQ xs : ℝ)| / Real.sqrt (varQ xs) < 3) := by
  rw [zKeepB, decide_eq_true_eq]
  by_cases hv : varQ xs = 0
  · have hL : ¬ ((x - meanQ xs) ^ 2 < 9 * varQ xs) := by
      rw [hv, mul_zero]
      exact not_lt.mpr (sq_nonneg _)
    have hR : Real.sqrt ((varQ xs : ℚ) : ℝ) = 0 := by
      rw [hv]
      simp
    constructor
    · intro h
      exact absurd h hL
    · rintro ⟨hne, -⟩
      exact absurd hR hne
  · have hvpos : 0 < varQ xs := lt_of_le_of_ne (varQNonneg xs) (Ne.symm hv)
    have hvRpos : (0 : ℝ) < (varQ xs : ℝ) := by exact_mod_cast hvpos
    have hspos : 0 < Real.sqrt (varQ xs) := Real.sqrt_pos.mpr hvRpos
    have key : ((x : ℝ) - (meanQ xs : ℝ)) ^ 2 < 9 * (varQ xs : ℝ) ↔
        |(x : ℝ) - (meanQ xs : ℝ)| < 3 * Real.sqrt (varQ xs) := by
      rw [mul_comm (3 : ℝ) (Real.sqrt _), ← div_lt_iff₀ (by norm_num : (0:ℝ) < 3),
        Real.lt_sqrt (by positivity), div_pow, sq_abs,
        div_lt_iff₀ (by norm_num : (0:ℝ) < 3 ^ 2),
        show (varQ xs : ℝ) * 3 ^ 2 = 9 * (varQ xs : ℝ) by ring]
    constructor
    · intro h
      refine ⟨ne_of_gt hspos, ?_⟩
      rw [div_lt_iff₀ hspos]
      exact key.mp (by exact_mod_cast h)
    · rintro ⟨-, h⟩
      rw [div_lt_iff₀ hspos] at h
      exact_mod_cast key.mpr h

/-- Helper: the sum of a constant list. -/
lemma sumConst (q : ℚ) : ∀ xs : List ℚ, (∀ x ∈ xs, x = q) → xs.sum = q * xs.length
  | [], _ => by simp
  | a :: t, h => by
    have ha : a = q := h a (List.mem_cons_self _ _)
    have ht := sumConst q t (fun x hx => h x (List.mem_cons_of_mem _ hx))
    rw [List.sum_cons, ht, ha, List.length_cons]
    push_cast
    ring

/-- Helper: the mean of a constant non-empty list is the constant. -/
lemma meanQConst (q : ℚ) (xs : List ℚ) (hne : xs ≠ []) (h : ∀ x ∈ xs, x = q) :
    meanQ xs = q := by
  have hlen : (xs.length : ℚ) ≠ 0 :=
    Nat.cast_ne_zero.mpr (fun hh => hne (List.length_eq_zero.mp hh))
  rw [meanQ, sumConst q xs h]
  field_simp

/-- Helper: the variance of a constant non-empty list is zero. -/
lemma varQConst (q : ℚ) (xs : List ℚ) (hne : xs ≠ []) (h : ∀ x ∈ xs, x = q) :
    varQ xs = 0 := by
  rw [varQ]
  have hzero : ∀ y ∈ xs.map (fun x => (x - meanQ xs) ^ 2), y = 0 := by
    intro y hy
    simp only [List.mem_map] at hy
    obtain ⟨x, hx, rfl⟩ := hy
    rw [h x hx, meanQConst q xs hne h]
    ring
  rw [sumConst 0 _ hzero, zero_mul, zero_div]

/-- Helper: every row's value in a scored column is among the scored list. -/
lemma rowsNumMemInv : ∀ (rows : List Row) (c : String) (xs : List ℚ),
    rowsNum rows c = some xs → ∀ r ∈ rows, ∃ x ∈ xs, rowNum r c = some x := by
  intro rows c
  induction rows with
  | nil =>
    intro xs h r hr
    cases hr
  | cons r0 rs ih =>
    intro xs h r hr
    rcases h0 : rowNum r0 c with _ | x0
    · simp [rowsNum, h0] at h
    · rcases h1 : rowsNum rs c with _ | xs'
      · simp [rowsNum, h0, h1] at h
      · simp only [rowsNum, h0, h1] at h
        injection h with h
        subst h
        rcases List.mem_cons.mp hr with rfl | hrs
        · exact ⟨x0, List.mem_cons_self _ _, h0⟩
        · obtain ⟨x, hx, hxr⟩ := ih xs' h1 r hrs
          exact ⟨x, List.mem_cons_of_mem _ hx, hxr⟩

/-- Helper: scoring a non-empty row set yields a non-empty value list. -/
lemma rowsNumNeNil (rows : List Row) (c : String) (xs : List ℚ)
    (hrows : rows ≠ []) (h : rowsNum rows c = some xs) : xs ≠ [] := by
  cases rows with
  | nil => exact absurd rfl hrows
  | cons r0 rs =>
    rcases h0 : rowNum r0 c with _ | x0
    · simp [rowsNum, h0] at h
    · rcases h1 : rowsNum rs c with _ | xs'
      · simp [rowsNum, h0, h1] at h
      · simp only [rowsNum, h0, h1] at h
        injection h with h
        rw [← h]
        simp

/-- Helper: a z-filter step on a constant non-empty column removes every
row. -/
lemma zFilterConstEmpty (df : DF) (c : String) (q : ℚ) (xs : List ℚ)
    (hxs : rowsNum df.rows c = some xs) (hq : ∀ x ∈ xs, x = q)
    (hne : df.rows ≠ []) : zFilter df c = .ok ⟨df.cols, []⟩ := by
  have hxsne : xs ≠ [] := rowsNumNeNil df.rows c xs hne hxs
  have hmean : meanQ xs = q := meanQConst q xs hxsne hq
  have hvar : varQ xs = 0 := varQConst q xs hxsne hq
  have hkeep : ∀ x ∈ xs, zKeepB xs x = false := by
    intro x hx
    rw [zKeepB, decide_eq_false_iff_not]
    rw [hq x hx, hmean, hvar]
    simp
  simp only [zFilter, hxs]
  rw [List.filter_eq_nil_iff.mpr ?h]
  case h =>
    intro r hr
    obtain ⟨x, hx, hrx⟩ := rowsNumMemInv df.rows c xs hxs r hr
    rw [hrx]
    simp [hkeep x hx]

/-- Helper: filtering an empty row set leaves it empty, whatever columns
remain. -/
lemma applyFiltersNilRows (cols : List String) :
    ∀ cs : List String, applyFilters ⟨cols, []⟩ cs = .ok ⟨cols, []⟩
  | [] => rfl
  | c :: cs => by
    have h : zFilter ⟨cols, []⟩ c = .ok (⟨cols, []⟩ : DF) := rfl
    rw [applyFiltersCons, h]
    exact applyFiltersNilRows cols cs

/-- Helper: on a non-empty table all of whose filtered columns are constant,
`removeOutliers` empties the table at the very first column. -/
lemma removeOutliersConst (df : DF) (hne : df.rows ≠ [])
    (hconst : ∀ c ∈ nonCategoricalColumns,
      ∃ xs q, rowsNum df.rows c = some xs ∧ ∀ x ∈ xs, x = q) :
    removeOutliers df = .ok ⟨df.cols, []⟩ := by
  obtain ⟨xs, q, hxs, hq⟩ := hconst "savingsRate" (by simp [nonCategoricalColumns])
  have h1 := zFilterConstEmpty df "savingsRate" q xs hxs hq hne
  show applyFilters df
    ["savingsRate", "distCrime", "amount", "duration", "payments", "expenses"] = _
  rw [applyFiltersCons, h1]
  exact applyFiltersNilRows df.cols _

/-- C2: `removeOutliers` is the sequential composition of one z-score filter
per column, in the order savingsRate, distCrime, amount, duration, payments,
expenses, each step scoring only the rows surviving the previous steps (first
conjunct); and each step keeps exactly the rows whose z-score magnitude in
that column is defined and strictly below 3 (second conjunct, stated on the
real-valued z-score `(x - mean) / sd`). -/
theorem removeOutliers_sequential (df : DF) :
    removeOutliers df =
      (zFilter df "savingsRate").bind (fun d1 =>
        (zFilter d1 "distCrime").bind (fun d2 =>
          (zFilter d2 "amount").bind (fun d3 =>
            (zFilter d3 "duration").bind (fun d4 =>
              (zFilter d4 "payments").bind (fun d5 =>
                zFilter d5 "expenses"))))) ∧
    ∀ (xs : List ℚ) (x : ℚ),
      zKeepB xs x = true ↔
        (Real.sqrt (varQ xs) ≠ 0 ∧
          |(x : ℝ) - (meanQ xs : ℝ)| / Real.sqrt (varQ xs) < 3) := by
  constructor
  · simp only [removeOutliers, nonCategoricalColumns, applyFiltersCons,
      applyFiltersNil, bindPureExcept]
  · exact zKeepBIff

/-- C3, counterexample to the claim as stated: on the concrete two-row table
`constDF`, in which every filtered column is the constant `1` (zero
variance), `removeOutliers` does not keep the input row set — it removes
*all* rows (the z-scores are NaN, `np.abs(NaN) < 3` is false), so the output
is empty while the input has two rows. -/
theorem removeOutliers_zero_variance_counterexample :
    removeOutliers constDF = .ok ⟨constDF.cols, []⟩ ∧ constDF.rows.length = 2 := by
  refine ⟨removeOutliersConst constDF (by simp [constDF]) ?_, rfl⟩
  intro c hc
  simp only [nonCategoricalColumns, List.mem_cons, List.not_mem_nil, or_false] at hc
  rcases hc with rfl | rfl | rfl | rfl | rfl | rfl <;>
    exact ⟨[1, 1], 1, rfl, by simp⟩

/-- C3, amended: on every non-empty table in which each filtered column is
present, numeric and of zero variance (all values equal), `removeOutliers`
removes every row — the output is the empty row set, not the input row
set. -/
theorem removeOutliers_zero_variance (df : DF) (hne : df.rows ≠ [])
    (hconst : ∀ c ∈ nonCategoricalColumns,
      ∃ xs q, rowsNum df.rows c = some xs ∧ ∀ x ∈ xs, x = q) :
    removeOutliers df = .ok ⟨df.cols, []⟩ :=
  removeOutliersConst df hne hconst

/-- Witness for the amended C3 at the concrete table `constDF`. -/
theorem removeOutliers_zero_variance_witness :
    removeOutliers constDF = .ok ⟨constDF.cols, []⟩ := by
  apply removeOutliers_zero_variance constDF (by simp [constDF])
  intro c hc
  simp only [nonCategoricalColumns, List.mem_cons, List.not_mem_nil, or_false] at hc
  rcases hc with rfl | rfl | rfl | rfl | rfl | rfl <;>
    exact ⟨[1, 1], 1, rfl, by simp⟩

/-- Helper: `Char.toNat` is injective. -/
lemma charToNatInj {a b : Char} (h : a.toNat = b.toNat) : a = b :=
  Char.ext (UInt32.ext h)

/-- Helper: `lexLe` is reflexive. -/
lemma lexLeRefl : ∀ cs : List Char, lexLe cs cs = true
  | [] => rfl
  | c :: cs => by simp [lexLe, lexLeRefl cs]

/-- Helper: `lexLe` is total. -/
lemma lexLeTotal : ∀ as bs : List Char, (lexLe as bs || lexLe bs as) = true
  | [], bs => by simp [lexLe]
  | a :: as, [] => by simp [lexLe]
  | a :: as, b :: bs => by
    by_cases hab : a = b
    · subst hab
      simp only [lexLe, if_pos rfl]
      exact lexLeTotal as bs
    · have hne : a.toNat ≠ b.toNat := fun h => hab (charToNatInj h)
      have hba : ¬ b = a := fun h => hab h.symm
      rcases Nat.lt_or_ge a.toNat b.toNat with h | h
      · simp [lexLe, hab, hba, h]
      · have hlt : b.toNat < a.toNat := lt_of_le_of_ne h (fun hh => hne hh.symm)
        simp [lexLe, hab, hba, hlt]

/-- Helper: `lexLe` is transitive. -/
lemma lexLeTrans : ∀ as bs cs : List Char,
    lexLe as bs = true → lexLe bs cs = true → lexLe as cs = true
  | [], _, _, _, _ => rfl
  | a :: as, [], cs, h1, _ => by simp [lexLe] at h1
  | a :: as, b :: bs, [], _, h2 => by simp [lexLe] at h2
  | a :: as, b :: bs, c :: cs, h1, h2 => by
    by_cases hab : a = b
    · subst hab
      by_cases hbc : a = c
      · subst hbc
        simp only [lexLe, if_pos rfl] at h1 h2 ⊢
        exact lexLeTrans as bs cs h1 h2
      · simp only [lexLe, if_pos rfl] at h1
        simp only [lexLe, if_neg hbc] at h2 ⊢
        exact h2
    · by_cases hbc : b = c
      · subst hbc
        simp only [lexLe, if_neg hab] at h1 ⊢
        exact h1
      · simp only [lexLe, if_neg hab] at h1
        simp only [lexLe, if_neg hbc] at h2
        have h1' : a.toNat < b.toNat := of_decide_eq_true h1
        have h2' : b.toNat < c.toNat := of_decide_eq_true h2
        have hac : a.toNat < c.toNat := Nat.lt_trans h1' h2'
        have hacne : ¬ a = c := fun h => absurd (h ▸ hac) (lt_irrefl _)
        simp only [lexLe, if_neg hacne]
        exact decide_eq_true hac

/-- Helper: `lexLe` is antisymmetric. -/
lemma lexLeAntisymm : ∀ as bs : List Char,
    lexLe as bs = true → lexLe bs as = true → as = bs
  | [], [], _, _ => rfl
  | [], b :: bs, _, h2 => by simp [lexLe] at h2
  | a :: as, [], h1, _ => by simp [lexLe] at h1
  | a :: as, b :: bs, h1, h2 => by
    by_cases hab : a = b
    · subst hab
      simp only [lexLe, if_pos rfl] at h1 h2
      rw [lexLeAntisymm as bs h1 h2]
    · have hba : ¬ b = a := fun h => hab h.symm
      simp only [lexLe, if_neg hab] at h1
      simp only [lexLe, if_neg hba] at h2
      exact absurd (of_decide_eq_true h2) (Nat.lt_asymm (of_decide_eq_true h1))

/-- Helper: `Val.le` is reflexive. -/
lemma valLeRefl (a : Val) : Val.le a a = true := by
  cases a with
  | num q => simp [Val.le]
  | str s => exact lexLeRefl s.data

/-- Helper: `Val.le` is total. -/
lemma valLeTotal : ∀ a b : Val, (Val.le a b || Val.le b a) = true
  | .num a, .num b => by
    rcases le_total a b with h | h <;> simp [Val.le, h]
  | .num _, .str _ => rfl
  | .str _, .num _ => rfl
  | .str a, .str b => lexLeTotal a.data b.data

/-- Helper: `Val.le` is transitive. -/
lemma valLeTrans : ∀ a b c : Val,
    Val.le a b = true → Val.le b c = true → Val.le a c = true
  | .num a, .num b, .num c, h1, h2 => by
    simp only [Val.le, decide_eq_true_eq] at h1 h2 ⊢
    exact le_trans h1 h2
  | .num _, .num _, .str _, _, _ => rfl
  | .num _, .str _, .num _, _, h2 => by simp [Val.le] at h2
  | .num _, .str _, .str _, _, _ => rfl
  | .str _, .num _, _, h1, _ => by simp [Val.le] at h1
  | .str _, .str _, .num _, _, h2 => by simp [Val.le] at h2
  | .str a, .str b, .str c, h1, h2 => lexLeTrans a.data b.data c.data h1 h2

/-- Helper: `Val.le` is antisymmetric. -/
lemma valLeAntisymm : ∀ a b : Val,
    Val.le a b = true → Val.le b a = true → a = b
  | .num a, .num b, h1, h2 => by
    simp only [Val.le, decide_eq_true_eq] at h1 h2
    rw [le_antisymm h1 h2]
  | .num _, .str _, _, h2 => by simp [Val.le] at h2
  | .str _, .num _, h1, _ => by simp [Val.le] at h1
  | .str a, .str b, h1, h2 => by
    rw [String.ext (lexLeAntisymm a.data b.data h1 h2)]

/-- Helper: strictness from a non-strict inequality between distinct cells. -/
lemma valLtOfLeNe (a b : Val) (h : Val.le a b = true) (hne : a ≠ b) :
    Val.lt a b = true := by
  cases hba : Val.le b a with
  | false => simp [Val.lt, h, hba]
  | true => exact absurd (valLeAntisymm a b h hba) hne

/-- Helper: nothing below `a` is strictly above it. -/
lemma valLtFalseOfLe (a b : Val) (h : Val.le a b = true) : Val.lt b a = false := by
  simp [Val.lt, h]

/-- Helper: in a sorted duplicate-free class list, the index of a member is
the number of strictly smaller elements. -/
lemma idxOfSorted : ∀ l : List Val,
    List.Pairwise (fun a b => Val.le a b = true) l → l.Nodup →
    ∀ v ∈ l, idxOfV l v = l.countP (fun w => Val.lt w v)
  | [], _, _, v, hv => absurd hv (List.not_mem_nil v)
  | a :: t, hp, hnd, v, hv => by
    obtain ⟨hat, hpt⟩ := List.pairwise_cons.mp hp
    obtain ⟨hna, hndt⟩ := List.nodup_cons.mp hnd
    by_cases hva : a = v
    · subst hva
      have h1 : Val.lt a a = false := valLtFalseOfLe a a (valLeRefl a)
      have h2 : t.countP (fun w => Val.lt w a) = 0 := by
        rw [List.countP_eq_zero]
        intro w hw
        simp [valLtFalseOfLe a w (hat w hw)]
      simp [idxOfV, List.countP_cons, h1, h2]
    · have hvt : v ∈ t := by
        rcases List.mem_cons.mp hv with h | h
        · exact absurd h.symm hva
        · exact h
      have hlav : Val.lt a v = true := valLtOfLeNe a v (hat v hvt) hva
      have hrec := idxOfSorted t hpt hndt v hvt
      simp [idxOfV, hva, List.countP_cons, hlav, hrec]

/-- Helper: the codes `LabelEncoder` produces are exactly, for each observed
value, the number of *distinct* observed values strictly below it — ascending
codes with the lowest distinct value receiving `0`. -/
lemma insertValPerm (v : Val) : ∀ l : List Val, (insertVal v l).Perm (v :: l)
  | [] => List.Perm.refl _
  | w :: ws => by
    by_cases h : Val.le v w = true
    · simp [insertVal, h]
    · simp only [insertVal, h, if_false, Bool.false_eq_true]
      exact ((insertValPerm v ws).cons w).trans (List.Perm.swap v w ws)

/-- Helper: insertion sort permutes its input. -/
lemma sortValsPerm : ∀ l : List Val, (sortVals l).Perm l
  | [] => List.Perm.refl _
  | v :: vs =>
    (insertValPerm v (sortVals vs)).trans ((sortValsPerm vs).cons v)

/-- Helper: inserting into a sorted list keeps it sorted. -/
lemma insertValPairwise (v : Val) : ∀ l : List Val,
    List.Pairwise (fun a b => Val.le a b = true) l →
    List.Pairwise (fun a b => Val.le a b = true) (insertVal v l)
  | [], _ => List.pairwise_cons.mpr ⟨fun x hx => absurd hx (List.not_mem_nil x),
      List.Pairwise.nil⟩
  | w :: ws, h => by
    obtain ⟨hw, hws⟩ := List.pairwise_cons.mp h
    by_cases hle : Val.le v w = true
    · simp only [insertVal, hle, if_true]
      refine List.pairwise_cons.mpr ⟨?_, h⟩
      intro x hx
      rcases List.mem_cons.mp hx with rfl | hx2
      · exact hle
      · exact valLeTrans v w x hle (hw x hx2)
    · have hwv : Val.le w v = true := by
        have := valLeTotal v w
        rcases Bool.or_eq_true_iff.mp this with h1 | h1
        · exact absurd h1 hle
        · exact h1
      simp only [insertVal, hle, if_false, Bool.false_eq_true]
      refine List.pairwise_cons.mpr ⟨?_, insertValPairwise v ws hws⟩
      intro x hx
      rcases List.mem_cons.mp ((insertValPerm v ws).mem_iff.mp hx) with rfl | h2
      · exact hwv
      · exact hw x h2

/-- Helper: insertion sort sorts. -/
lemma sortValsPairwise : ∀ l : List Val,
    List.Pairwise (fun a b => Val.le a b = true) (sortVals l)
  | [] => List.Pairwise.nil
  | v :: vs => insertValPairwise v (sortVals vs) (sortValsPairwise vs)

/-- Helper: the codes `LabelEncoder` produces are exactly, for each observed
value, the number of *distinct* observed values strictly below it — ascending
codes with the lowest distinct value receiving `0`. -/
lemma encodeColSpec (vs : List Val) :
    encodeCol vs = vs.map (fun v => vs.dedup.countP (fun w => Val.lt w v)) := by
  simp only [encodeCol]
  apply List.map_congr_left
  intro v hv
  have hperm : (sortVals vs.dedup).Perm vs.dedup := sortValsPerm _
  have hsorted : List.Pairwise (fun a b => Val.le a b = true)
      (sortVals vs.dedup) := sortValsPairwise _
  have hnd : (sortVals vs.dedup).Nodup :=
    hperm.nodup_iff.mpr (List.nodup_dedup vs)
  have hvmem : v ∈ sortVals vs.dedup :=
    hperm.mem_iff.mpr (List.mem_dedup.mpr hv)
  rw [idxOfSorted _ hsorted hnd v hvmem]
  exact hperm.countP_eq _

/-- Helper: appending a cell for another column does not disturb lookups. -/
lemma lookupAppendNe (r : Row) (c k : String) (hck : c ≠ k) (v : Val) :
    (r ++ [(k, v)]).lookup c = r.lookup c := by
  rw [List.lookup_append]
  have hb : (c == k) = false := beq_eq_false_iff_ne.mpr hck
  have h0 : (List.lookup c [(k, v)] : Option Val) = none := by
    simp [List.lookup_cons, hb]
  rw [h0, Option.or_none]

/-- Helper: appending a cell for a column the row lacks makes it the looked-up
value. -/
lemma lookupAppendSelf (r : Row) (c : String) (hr : r.lookup c = none) (v : Val) :
    (r ++ [(c, v)]).lookup c = some v := by
  rw [List.lookup_append, hr, Option.none_or]
  simp [List.lookup_cons]

/-- Helper: after dropping a column from a row, its lookup misses. -/
lemma lookupFilterSelf (k : String) : ∀ r : Row,
    (r.filter (fun p => p.1 ≠ k)).lookup k = none
  | [] => rfl
  | (k1, v) :: t => by
    by_cases h : k1 = k
    · subst h
      have hd : (decide (k1 ≠ k1)) = false := by simp
      simp only [List.filter_cons, hd, Bool.false_eq_true, if_false]
      exact lookupFilterSelf k1 t
    · have hd : (decide (k1 ≠ k)) = true := by simp [h]
      have hb : (k == k1) = false := beq_eq_false_iff_ne.mpr (fun hh => h hh.symm)
      simp only [List.filter_cons, hd, if_true, List.lookup_cons, hb]
      exact lookupFilterSelf k t

/-- Helper: the length of a scored column equals the row count. -/
lemma rowsValsLength : ∀ (rows : List Row) (c : String) (vs : List Val),
    rowsVals rows c = some vs → vs.length = rows.length
  | [], c, vs, h => by
    simp only [rowsVals] at h
    injection h with h
    rw [← h]
    rfl
  | r :: rs, c, vs, h => by
    rcases h0 : r.lookup c with _ | v
    · simp [rowsVals, h0] at h
    · rcases h1 : rowsVals rs c with _ | vs'
      · simp [rowsVals, h0, h1] at h
      · simp only [rowsVals, h0, h1] at h
        injection h with h
        rw [← h, List.length_cons, List.length_cons,
          rowsValsLength rs c vs' h1]

/-- Helper: parsed dates are as many as the date cells. -/
lemma datesYMDLength : ∀ (vs : List Val) (ys : List (ℕ × ℕ × ℕ)),
    datesYMD vs = some ys → ys.length = vs.length
  | [], ys, h => by
    simp only [datesYMD] at h
    injection h with h
    rw [← h]
    rfl
  | v :: vs, ys, h => by
    rcases h0 : convertFullDate (valToString v) with _ | ymd
    · simp [datesYMD, h0] at h
    · rcases h1 : datesYMD vs with _ | ys'
      · simp [datesYMD, h0, h1] at h
      · simp only [datesYMD, h0, h1] at h
        injection h with h
        rw [← h, List.length_cons, List.length_cons, datesYMDLength vs ys' h1]

/-- Helper: dropping an unrelated column leaves a scored column unchanged. -/
lemma rowsValsMapFilter (k c : String) (hck : c ≠ k) : ∀ rows : List Row,
    rowsVals (rows.map (fun r => r.filter (fun p => p.1 ≠ k))) c = rowsVals rows c
  | [] => rfl
  | r :: rs => by
    simp only [List.map_cons, rowsVals, lookupFilterNe c k hck r,
      rowsValsMapFilter k c hck rs]

/-- Helper: appending an unrelated column leaves a scored column unchanged. -/
lemma rowsValsZipAppend (k c : String) (hck : c ≠ k) :
    ∀ (rows : List Row) (vs : List Val), vs.length = rows.length →
      rowsVals ((rows.zip vs).map (fun p => p.1 ++ [(k, p.2)])) c = rowsVals rows c
  | [], [], _ => rfl
  | [], v :: vs, h => by simp at h
  | r :: rs, [], h => by simp at h
  | r :: rs, v :: vs, h => by
    have hlen : vs.length = rs.length := by simpa using h
    have ih := rowsValsZipAppend k c hck rs vs hlen
    simp only [List.zip] at ih
    simp only [List.zip_cons_cons, List.map_cons, rowsVals,
      lookupAppendNe r c k hck v]
    rw [ih]

/-- Helper: dropping an unrelated column leaves a read-out column unchanged. -/
lemma colMapFilter (k c : String) (hck : c ≠ k) (rows : List Row) :
    (rows.map (fun r => r.filter (fun p => p.1 ≠ k))).map
        (fun r => (r.lookup c).getD (Val.num 0)) =
      rows.map (fun r => (r.lookup c).getD (Val.num 0)) := by
  rw [List.map_map]
  apply List.map_congr_left
  intro r hr
  simp only [Function.comp_apply, lookupFilterNe c k hck r]

/-- Helper: appending an unrelated column leaves a read-out column
unchanged. -/
lemma colZipAppendNe (k c : String) (hck : c ≠ k) :
    ∀ (rows : List Row) (vs : List Val), vs.length = rows.length →
      ((rows.zip vs).map (fun p => p.1 ++ [(k, p.2)])).map
          (fun r => (r.lookup c).getD (Val.num 0)) =
        rows.map (fun r => (r.lookup c).getD (Val.num 0))
  | [], [], _ => rfl
  | [], v :: vs, h => by simp at h
  | r :: rs, [], h => by simp at h
  | r :: rs, v :: vs, h => by
    have hlen : vs.length = rs.length := by simpa using h
    simp only [List.zip_cons_cons, List.map_cons, lookupAppendNe r c k hck v,
      colZipAppendNe k c hck rs vs hlen]

/-- Helper: reading back a freshly appended column returns the appended
values. -/
lemma colZipAppendSelf (k : String) :
    ∀ (rows : List Row) (vs : List Val), vs.length = rows.length →
      (∀ r ∈ rows, r.lookup k = none) →
      ((rows.zip vs).map (fun p => p.1 ++ [(k, p.2)])).map
          (fun r => (r.lookup k).getD (Val.num 0)) = vs
  | [], [], _, _ => rfl
  | [], v :: vs, h, _ => by simp at h
  | r :: rs, [], h, _ => by simp at h
  | r :: rs, v :: vs, h, hnone => by
    have hlen : vs.length = rs.length := by simpa using h
    simp only [List.zip_cons_cons, List.map_cons,
      lookupAppendSelf r k (hnone r (List.mem_cons_self _ _)) v, Option.getD_some,
      colZipAppendSelf k rs vs hlen (fun r hr => hnone r (List.mem_cons_of_mem _ hr))]

/-- Helper: a column missing from every row is still missing after a drop. -/
lemma noneMapFilter (k c : String) (hck : c ≠ k) (rows : List Row)
    (h : ∀ r ∈ rows, r.lookup c = none) :
    ∀ r ∈ rows.map (fun r => r.filter (fun p => p.1 ≠ k)), r.lookup c = none := by
  intro r hr
  obtain ⟨r0, hr0, rfl⟩ := List.mem_map.mp hr
  rw [lookupFilterNe c k hck r0]
  exact h r0 hr0

/-- Helper: a column missing from every row is still missing after appending
an unrelated one. -/
lemma noneZipAppend (k c : String) (hck : c ≠ k) (rows : List Row) (vs : List Val)
    (h : ∀ r ∈ rows, r.lookup c = none) :
    ∀ r ∈ (rows.zip vs).map (fun p => p.1 ++ [(k, p.2)]), r.lookup c = none := by
  intro r hr
  obtain ⟨⟨r0, v⟩, hmem, rfl⟩ := List.mem_map.mp hr
  rw [lookupAppendNe r0 c k hck v]
  exact h r0 (List.mem_zip hmem).1

/-- Helper: appending a column preserves the row count when the value list
fits. -/
lemma zipAppendLength (rows : List Row) (vs : List Val) (h : vs.length = rows.length)
    (k : String) :
    ((rows.zip vs).map (fun p => p.1 ++ [(k, p.2)])).length = rows.length := by
  simp [List.length_zip, h]

/-- Helper: encoding preserves the column length. -/
lemma encodeColLength (vs : List Val) : (encodeCol vs).length = vs.length := by
  simp [encodeCol]
/-- Helper: length of a column-append construction. -/
lemma zipAppendLength2 (rows : List Row) (vs : List Val) (k : String) (n : ℕ)
    (hr : rows.length = n) (hv : vs.length = n) :
    ((rows.zip vs).map (fun p => p.1 ++ [(k, p.2)])).length = n := by
  simp [List.length_zip, hr, hv]

/-- Helper: length of a column-drop construction. -/
lemma mapFilterLength (rows : List Row) (k : String) (n : ℕ) (h : rows.length = n) :
    (rows.map (fun r => r.filter (fun p => p.1 ≠ k))).length = n := by
  simp [h]

/-- C9: on a table with `gender`, `ageGroup` and `date` columns (and no
pre-existing `month`/`day` cells) whose date cells all parse, `labelEncoding`
succeeds; the `gender` and `ageGroup` columns are replaced by integer codes
assigned by ascending sort of the distinct observed values — the final
conjunct states the code of `v` as the number of distinct observed values
strictly below `v`, so the lowest value gets code 0 — and the `date` column
is replaced by numeric `month` and `day` columns, with a `year` column
present in the output only if the input already had one (none is produced).
The embedding is a pure function, so the same input always yields the same
codes. -/
theorem labelEncoding_spec (df : DF) (genderVals ageGroupVals dateVals : List Val)
    (ymds : List (ℕ × ℕ × ℕ))
    (hgc : "gender" ∈ df.cols) (hac : "ageGroup" ∈ df.cols) (hdc : "date" ∈ df.cols)
    (hg : rowsVals df.rows "gender" = some genderVals)
    (ha : rowsVals df.rows "ageGroup" = some ageGroupVals)
    (hd : rowsVals df.rows "date" = some dateVals)
    (hymd : datesYMD dateVals = some ymds)
    (hm : ∀ r ∈ df.rows, r.lookup "month" = none)
    (hday : ∀ r ∈ df.rows, r.lookup "day" = none) :
    ∃ out : DF, labelEncoding df = .ok out ∧
      getCol out "gender" = (encodeCol genderVals).map (fun n : ℕ => Val.num (n : ℚ)) ∧
      getCol out "ageGroup" = (encodeCol ageGroupVals).map (fun n : ℕ => Val.num (n : ℚ)) ∧
      getCol out "month" = ymds.map (fun t => Val.num (t.2.1 : ℚ)) ∧
      getCol out "day" = ymds.map (fun t => Val.num (t.2.2 : ℚ)) ∧
      "date" ∉ out.cols ∧ ("year" ∈ out.cols ↔ "year" ∈ df.cols) ∧
      "gender" ∈ out.cols ∧ "ageGroup" ∈ out.cols ∧
      "month" ∈ out.cols ∧ "day" ∈ out.cols ∧
      (∀ vs : List Val,
        encodeCol vs = vs.map (fun v => vs.dedup.countP (fun w => Val.lt w v))) := by
  have hnG : genderVals.length = df.rows.length :=
    rowsValsLength df.rows "gender" genderVals hg
  have hnA : ageGroupVals.length = df.rows.length :=
    rowsValsLength df.rows "ageGroup" ageGroupVals ha
  have hnD : dateVals.length = df.rows.length :=
    rowsValsLength df.rows "date" dateVals hd
  have hnY : ymds.length = dateVals.length := datesYMDLength dateVals ymds hymd
  have hL1 : (df.rows.map (fun r => r.filter (fun p => p.1 ≠ "gender"))).length =
      df.rows.length := by simp
  have hL2 := mapFilterLength _ "ageGroup" _ hL1
  have hGlen : ((encodeCol genderVals).map (fun n : ℕ => Val.num (n : ℚ))).length =
      df.rows.length := by simp [encodeColLength, hnG]
  have hAlen : ((encodeCol ageGroupVals).map (fun n : ℕ => Val.num (n : ℚ))).length =
      df.rows.length := by simp [encodeColLength, hnA]
  have hMlen : (ymds.map (fun t => Val.num (t.2.1 : ℚ))).length =
      df.rows.length := by simp [hnY, hnD]
  have hDlen : (ymds.map (fun t => Val.num (t.2.2 : ℚ))).length =
      df.rows.length := by simp [hnY, hnD]
  have hL3 := zipAppendLength2 _ _ "gender" _ hL2 hGlen
  have hL4 := zipAppendLength2 _ _ "ageGroup" _ hL3 hAlen
  have hL5 := mapFilterLength _ "date" _ hL4
  have hL6 := zipAppendLength2 _ _ "month" _ hL5 hMlen
  have hgnone1 : ∀ r ∈ df.rows.map (fun r => r.filter (fun p => p.1 ≠ "gender")),
      r.lookup "gender" = none := by
    intro r hr
    obtain ⟨r0, hr0, rfl⟩ := List.mem_map.mp hr
    exact lookupFilterSelf "gender" r0
  have hgnone2 := noneMapFilter "ageGroup" "gender" (by decide) _ hgnone1
  have hanone2 : ∀ r ∈ (df.rows.map (fun r => r.filter (fun p => p.1 ≠ "gender"))).map
      (fun r => r.filter (fun p => p.1 ≠ "ageGroup")), r.lookup "ageGroup" = none := by
    intro r hr
    obtain ⟨r0, hr0, rfl⟩ := List.mem_map.mp hr
    exact lookupFilterSelf "ageGroup" r0
  have hanone3 := noneZipAppend "gender" "ageGroup" (by decide) _
    ((encodeCol genderVals).map (fun n : ℕ => Val.num (n : ℚ))) hanone2
  have hm1 := noneMapFilter "gender" "month" (by decide) df.rows hm
  have hm2 := noneMapFilter "ageGroup" "month" (by decide) _ hm1
  have hm3 := noneZipAppend "gender" "month" (by decide) _
    ((encodeCol genderVals).map (fun n : ℕ => Val.num (n : ℚ))) hm2
  have hm4 := noneZipAppend "ageGroup" "month" (by decide) _
    ((encodeCol ageGroupVals).map (fun n : ℕ => Val.num (n : ℚ))) hm3
  have hm5 := noneMapFilter "date" "month" (by decide) _ hm4
  have hday1 := noneMapFilter "gender" "day" (by decide) df.rows hday
  have hday2 := noneMapFilter "ageGroup" "day" (by decide) _ hday1
  have hday3 := noneZipAppend "gender" "day" (by decide) _
    ((encodeCol genderVals).map (fun n : ℕ => Val.num (n : ℚ))) hday2
  have hday4 := noneZipAppend "ageGroup" "day" (by decide) _
    ((encodeCol ageGroupVals).map (fun n : ℕ => Val.num (n : ℚ))) hday3
  have hday5 := noneMapFilter "date" "day" (by decide) _ hday4
  have hday6 := noneZipAppend "month" "day" (by decide) _
    (ymds.map (fun t => Val.num (t.2.1 : ℚ))) hday5
  have hac1 : "ageGroup" ∈ df.cols.filter (fun x => x ≠ "gender") := by
    simp [List.mem_filter, hac]
  have hdc4 : "date" ∈ (((df.cols.filter (fun x => x ≠ "gender")).filter
      (fun x => x ≠ "ageGroup")) ++ ["gender"]) ++ ["ageGroup"] := by
    simp [List.mem_append, List.mem_filter, hdc]
  have hrun : labelEncoding df =
      .ok ⟨(((((df.cols.filter (fun x => x ≠ "gender")).filter
              (fun x => x ≠ "ageGroup")) ++ ["gender"] ++ ["ageGroup"]).filter
              (fun x => x ≠ "date")) ++ ["month"]) ++ ["day"],
           ((((((((((df.rows.map (fun r => r.filter (fun p => p.1 ≠ "gender"))).map
              (fun r => r.filter (fun p => p.1 ≠ "ageGroup"))).zip
                ((encodeCol genderVals).map (fun n : ℕ => Val.num (n : ℚ)))).map
              (fun p => p.1 ++ [("gender", p.2)])).zip
                ((encodeCol ageGroupVals).map (fun n : ℕ => Val.num (n : ℚ)))).map
              (fun p => p.1 ++ [("ageGroup", p.2)])).map
              (fun r => r.filter (fun p => p.1 ≠ "date"))).zip
                (ymds.map (fun t => Val.num (t.2.1 : ℚ)))).map
              (fun p => p.1 ++ [("month", p.2)])).zip
                (ymds.map (fun t => Val.num (t.2.2 : ℚ)))).map
              (fun p => p.1 ++ [("day", p.2)])⟩ := by
    unfold labelEncoding
    rw [hg, ha, dropColOk df "gender" hgc]
    dsimp only
    rw [dropColOk _ "ageGroup" hac1]
    dsimp only [addCol]
    rw [rowsValsZipAppend "ageGroup" "date" (by decide) _ _ (hAlen.trans hL3.symm),
      rowsValsZipAppend "gender" "date" (by decide) _ _ (hGlen.trans hL2.symm),
      rowsValsMapFilter "ageGroup" "date" (by decide),
      rowsValsMapFilter "gender" "date" (by decide), hd]
    dsimp only
    rw [hymd]
    dsimp only
    rw [dropColOk _ "date" hdc4]
  refine ⟨_, hrun, ?_, ?_, ?_, ?_, ?_, ?_, ?_, ?_, ?_, ?_, ?_⟩
  · simp only [getCol]
    rw [colZipAppendNe "day" "gender" (by decide) _ _ (hDlen.trans hL6.symm),
      colZipAppendNe "month" "gender" (by decide) _ _ (hMlen.trans hL5.symm),
      colMapFilter "date" "gender" (by decide),
      colZipAppendNe "ageGroup" "gender" (by decide) _ _ (hAlen.trans hL3.symm),
      colZipAppendSelf "gender" _ _ (hGlen.trans hL2.symm) hgnone2]
  · simp only [getCol]
    rw [colZipAppendNe "day" "ageGroup" (by decide) _ _ (hDlen.trans hL6.symm),
      colZipAppendNe "month" "ageGroup" (by decide) _ _ (hMlen.trans hL5.symm),
      colMapFilter "date" "ageGroup" (by decide),
      colZipAppendSelf "ageGroup" _ _ (hAlen.trans hL3.symm) hanone3]
  · simp only [getCol]
    rw [colZipAppendNe "day" "month" (by decide) _ _ (hDlen.trans hL6.symm),
      colZipAppendSelf "month" _ _ (hMlen.trans hL5.symm) hm5]
  · simp only [getCol]
    rw [colZipAppendSelf "day" _ _ (hDlen.trans hL6.symm) hday6]
  · simp
  · simp
  · simp
  · simp
  · simp
  · simp
  · exact encodeColSpec

/-- Witness for C9 at the spec's concrete test vector: genders `M, F, M`
encode to `1, 0, 1` (`F` is the lowest distinct value and gets code 0), the
date `"1997-05-12"` becomes `month = 5`, `day = 12`, and the output has no
`date` or `year` column. -/
theorem labelEncoding_spec_witness :
    labelEncoding ⟨["gender", "ageGroup", "date"],
      [[("gender", Val.str "M"), ("ageGroup", Val.str "adult"),
        ("date", Val.str "1997-05-12")],
       [("gender", Val.str "F"), ("ageGroup", Val.str "adult"),
        ("date", Val.str "1996-01-02")],
       [("gender", Val.str "M"), ("ageGroup", Val.str "old"),
        ("date", Val.str "1998-12-31")]]⟩
      = .ok ⟨["gender", "ageGroup", "month", "day"],
        [[("gender", Val.num 1), ("ageGroup", Val.num 0), ("month", Val.num 5),
          ("day", Val.num 12)],
         [("gender", Val.num 0), ("ageGroup", Val.num 0), ("month", Val.num 1),
          ("day", Val.num 2)],
         [("gender", Val.num 1), ("ageGroup", Val.num 1), ("month", Val.num 12),
          ("day", Val.num 31)]]⟩ ∧
    getCol ⟨["gender", "ageGroup", "month", "day"],
        [[("gender", Val.num 1), ("ageGroup", Val.num 0), ("month", Val.num 5),
          ("day", Val.num 12)],
         [("gender", Val.num 0), ("ageGroup", Val.num 0), ("month", Val.num 1),
          ("day", Val.num 2)],
         [("gender", Val.num 1), ("ageGroup", Val.num 1), ("month", Val.num 12),
          ("day", Val.num 31)]]⟩ "gender" = [Val.num 1, Val.num 0, Val.num 1] := by
  obtain ⟨out, hout, hgender, -, -, -, -, -, -, -, -, -⟩ :=
    labelEncoding_spec ⟨["gender", "ageGroup", "date"],
      [[("gender", Val.str "M"), ("ageGroup", Val.str "adult"),
        ("date", Val.str "1997-05-12")],
       [("gender", Val.str "F"), ("ageGroup", Val.str "adult"),
        ("date", Val.str "1996-01-02")],
       [("gender", Val.str "M"), ("ageGroup", Val.str "old"),
        ("date", Val.str "1998-12-31")]]⟩
      [Val.str "M", Val.str "F", Val.str "M"]
      [Val.str "adult", Val.str "adult", Val.str "old"]
      [Val.str "1997-05-12", Val.str "1996-01-02", Val.str "1998-12-31"]
      [(1997, 5, 12), (1996, 1, 2), (1998, 12, 31)]
      (by decide) (by decide) (by decide) rfl rfl rfl rfl (by decide) (by decide)
  have he : labelEncoding ⟨["gender", "ageGroup", "date"],
      [[("gender", Val.str "M"), ("ageGroup", Val.str "adult"),
        ("date", Val.str "1997-05-12")],
       [("gender", Val.str "F"), ("ageGroup", Val.str "adult"),
        ("date", Val.str "1996-01-02")],
       [("gender", Val.str "M"), ("ageGroup", Val.str "old"),
        ("date", Val.str "1998-12-31")]]⟩
      = .ok ⟨["gender", "ageGroup", "month", "day"],
        [[("gender", Val.num 1), ("ageGroup", Val.num 0), ("month", Val.num 5),
          ("day", Val.num 12)],
         [("gender", Val.num 0), ("ageGroup", Val.num 0), ("month", Val.num 1),
          ("day", Val.num 2)],
         [("gender", Val.num 1), ("ageGroup", Val.num 1), ("month", Val.num 12),
          ("day", Val.num 31)]]⟩ := rfl
  rw [he] at hout
  injection hout with hout
  subst hout
  exact ⟨he, hgender⟩
end ML2022
